import Mathlib

/-!
Shallow embedding of the arnulf TAP-14 parser (src/src/parsing.rs and
src/src/lib.rs) over lists of characters, together with theorems settling
the frozen claims about its specification.

The nom parser results are modelled by the four-way PResult type: a
successful parse with remaining input, a recoverable grammar error
(nom Err.Error), a needs-more-input signal (nom Err.Incomplete), and a
Rust panic (expect, unwrap, todo, unreachable), which aborts and therefore
propagates through every combinator.
-/

namespace Arnulf

/-- Outcome of one nom parser applied to a character list. -/
inductive PResult (α : Type) where
  | parsed (remaining : List Char) (value : α)
  | error
  | incomplete
  | panik
  deriving DecidableEq

/-- Sequencing of parser outcomes: errors, incompleteness and panics all
short-circuit, exactly as the question-mark operator and panics do in the
Rust source. -/
def pbind {α β : Type} (r : PResult α) (f : List Char → α → PResult β) : PResult β :=
  match r with
  | .parsed rem v => f rem v
  | .error => .error
  | .incomplete => .incomplete
  | .panik => .panik

/-- The nom opt combinator: a recoverable error becomes a successful parse
of none; incompleteness and panics still propagate. -/
def popt {α : Type} (p : List Char → PResult α) (s : List Char) : PResult (Option α) :=
  match p s with
  | .parsed r v => .parsed r (some v)
  | .error => .parsed s none
  | .incomplete => .incomplete
  | .panik => .panik

/-- The nom alt combinator on two branches: the second branch is tried only
when the first reports a recoverable error. -/
def palt {α : Type} (p q : List Char → PResult α) (s : List Char) : PResult α :=
  match p s with
  | .error => q s
  | r => r

/-- Characters recognized by nom space0 and space1: space and tab. -/
def isSpaceTab (c : Char) : Bool :=
  c == ' ' || c == '\t'

/-- Characters recognized by nom multispace0: space, tab, newline,
carriage return. -/
def isMultiChar (c : Char) : Bool :=
  c == ' ' || c == '\t' || c == '\n' || c == '\r'

/-- The Rust char is_whitespace predicate: the Unicode White_Space set. -/
def rustIsWhitespace (c : Char) : Bool :=
  (0x9 ≤ c.toNat && c.toNat ≤ 0xD) || c.toNat == 0x20 ||
  c.toNat == 0x85 || c.toNat == 0xA0 || c.toNat == 0x1680 ||
  (0x2000 ≤ c.toNat && c.toNat ≤ 0x200A) ||
  c.toNat == 0x2028 || c.toNat == 0x2029 || c.toNat == 0x202F ||
  c.toNat == 0x205F || c.toNat == 0x3000

/-- The Rust str trim method: strips leading and trailing whitespace. -/
def rustTrim (s : List Char) : List Char :=
  ((s.dropWhile rustIsWhitespace).reverse.dropWhile rustIsWhitespace).reverse

/-- ASCII lower-casing of one character, as the case folding applied by
nom tag_no_case and the Rust to_lowercase on the ASCII keywords involved. -/
def asciiLower (c : Char) : Char :=
  if 65 ≤ c.toNat && c.toNat ≤ 90 then Char.ofNat (c.toNat + 32) else c

/-- Numeric value of a run of decimal digits, as read by str parse. -/
def digitsToNat (ds : List Char) : Nat :=
  ds.foldl (fun n c => 10 * n + (c.toNat - 48)) 0

/-- Result of matching a literal tag against the head of the input:
a full match with the rest of the input, input that ran out while still
agreeing with the tag, or a definite mismatch. -/
inductive TagRes where
  | hit (rem : List Char)
  | short
  | miss
  deriving DecidableEq

/-- Core literal matcher shared by the complete and streaming tag parsers. -/
def tagCore : List Char → List Char → TagRes
  | [], s => .hit s
  | _ :: _, [] => .short
  | t :: ts, c :: cs => if c = t then tagCore ts cs else .miss

/-- nom bytes complete tag: both a mismatch and exhausted input are
recoverable errors. -/
def tagC (t s : List Char) : PResult (List Char) :=
  match tagCore t s with
  | .hit r => .parsed r t
  | .short => .error
  | .miss => .error

/-- nom bytes streaming tag: exhausted input that still agrees with the tag
is Incomplete rather than an error. -/
def tagS (t s : List Char) : PResult (List Char) :=
  match tagCore t s with
  | .hit r => .parsed r t
  | .short => .incomplete
  | .miss => .error

/-- Core case-insensitive literal matcher; returns the consumed input slice
with its original casing, as nom tag_no_case does. -/
def tagNoCaseCore : List Char → List Char → Option (List Char × List Char)
  | [], s => some ([], s)
  | _ :: _, [] => none
  | t :: ts, c :: cs =>
    if asciiLower c = asciiLower t then
      match tagNoCaseCore ts cs with
      | some (m, r) => some (c :: m, r)
      | none => none
    else none

/-- nom bytes complete tag_no_case. -/
def tagNoCaseC (t s : List Char) : PResult (List Char) :=
  match tagNoCaseCore t s with
  | some (m, r) => .parsed r m
  | none => .error

/-- Index of the first occurrence of pat as a contiguous block of s. -/
def findSub (pat : List Char) : List Char → Option Nat
  | [] => if pat.isEmpty then some 0 else none
  | c :: rest =>
    if pat.isPrefixOf (c :: rest) then some 0
    else (findSub pat rest).map (· + 1)

/-- nom bytes complete take_until: consumes up to but not including the
first occurrence of pat; absence of pat is a recoverable error. -/
def takeUntilC (pat s : List Char) : PResult (List Char) :=
  match findSub pat s with
  | some i => .parsed (s.drop i) (s.take i)
  | none => .error

/-- nom bytes complete take_until1: like take_until but an empty match is
also a recoverable error. -/
def takeUntil1C (pat s : List Char) : PResult (List Char) :=
  match findSub pat s with
  | some i => if i = 0 then .error else .parsed (s.drop i) (s.take i)
  | none => .error

/-- nom take_while: always succeeds, consuming the longest prefix whose
characters satisfy the predicate. -/
def takeWhileC (p : Char → Bool) (s : List Char) : PResult (List Char) :=
  .parsed (s.dropWhile p) (s.takeWhile p)

/-- nom combinator rest: consumes the whole input. -/
def restC (s : List Char) : PResult (List Char) :=
  .parsed [] s

/-- nom character complete space1: one or more spaces or tabs. -/
def space1C (s : List Char) : PResult (List Char) :=
  let run := s.takeWhile isSpaceTab
  if run.isEmpty then .error else .parsed (s.dropWhile isSpaceTab) run

/-- nom character complete space0: zero or more spaces or tabs. -/
def space0C (s : List Char) : PResult (List Char) :=
  .parsed (s.dropWhile isSpaceTab) (s.takeWhile isSpaceTab)

/-- nom character complete multispace0: zero or more spaces, tabs, newlines
and carriage returns. -/
def multispace0C (s : List Char) : PResult (List Char) :=
  .parsed (s.dropWhile isMultiChar) (s.takeWhile isMultiChar)

/-- nom character complete newline: exactly one newline character. -/
def newlineC (s : List Char) : PResult Char :=
  match s with
  | [] => .error
  | c :: r => if c = '\n' then .parsed r c else .error

/-- nom character complete digit1: one or more decimal digits. -/
def digit1C (s : List Char) : PResult (List Char) :=
  let run := s.takeWhile Char.isDigit
  if run.isEmpty then .error
  else .parsed (s.dropWhile Char.isDigit) run

/-- nom character streaming digit1: when the digit run reaches the end of
the available input the outcome is Incomplete, since more digits may still
arrive. -/
def digit1S (s : List Char) : PResult (List Char) :=
  let run := s.takeWhile Char.isDigit
  if run.isEmpty then (if s.isEmpty then .incomplete else .error)
  else if (s.dropWhile Char.isDigit).isEmpty then .incomplete
  else .parsed (s.dropWhile Char.isDigit) run

/-- Fuelled loop of the nom many1 combinator: keeps applying the parser
while it succeeds and consumes input; a parser success that consumes
nothing is an error, as in nom. -/
def pmany1Loop {α : Type} (p : List Char → PResult α) :
    Nat → List Char → List α → PResult (List α)
  | 0, s, acc => .parsed s acc.reverse
  | fuel + 1, s, acc =>
    match p s with
    | .parsed r v =>
      if r.length < s.length then pmany1Loop p fuel r (v :: acc) else .error
    | .error => .parsed s acc.reverse
    | .incomplete => .incomplete
    | .panik => .panik

/-- nom multi many1: at least one successful application. -/
def pmany1 {α : Type} (p : List Char → PResult α) (s : List Char) : PResult (List α) :=
  match p s with
  | .parsed r v =>
    if r.length < s.length then pmany1Loop p r.length r [v] else .error
  | .error => .error
  | .incomplete => .incomplete
  | .panik => .panik

/-- The TestDirective enum of the source. -/
inductive TestDirective where
  | todo (reason : Option (List Char))
  | skip (reason : Option (List Char))
  deriving DecidableEq

/-- The TestPoint record as constructed by parse_test_point in
src/src/parsing.rs: status, optional test number, optional trimmed
description, optional directive and optional verbatim yaml block. -/
structure TestPoint where
  status : Bool
  test_number : Option Nat
  description : Option (List Char)
  directive : Option TestDirective
  yaml : Option (List Char)
  deriving DecidableEq

namespace Parsing

/-- parse_test_count from src/src/parsing.rs: the literal 1.. then a run
of decimal digits. -/
def parse_test_count (s : List Char) : PResult (List Char) :=
  pbind (tagC ['1', '.', '.'] s) fun r _ => digit1C r

/-- parse_plan from src/src/parsing.rs. The inner helpers parse_reason and
parse_remaining of the source are defined there but never applied, so the
function consumes only the 1..N prefix; the count is converted with a
parse followed by expect, which panics when the digits exceed the u32
range. -/
def parse_plan (s : List Char) : PResult Nat :=
  pbind (parse_test_count s) fun r ds =>
  if digitsToNat ds < 2 ^ 32 then .parsed r (digitsToNat ds) else .panik

/-- parse_yaml from src/src/parsing.rs: delimited(tag, rest, tag), where
rest consumes the whole input before the closing tag is tried. -/
def parse_yaml (s : List Char) : PResult (List Char) :=
  pbind (tagC [' ', ' ', '-', '-', '-', '\n'] s) fun r1 _ =>
  pbind (restC r1) fun r2 v =>
  pbind (tagC [' ', ' ', '.', '.', '.', '\n'] r2) fun r3 _ =>
  .parsed r3 v

/-- parse_empty from src/src/parsing.rs: preceded(multispace0, tag of a
newline). -/
def parse_empty (s : List Char) : PResult (List Char) :=
  pbind (multispace0C s) fun r _ => tagC ['\n'] r

/-- parse_description from src/src/parsing.rs: an optional space-dash
marker, one or more spaces, then take_until1 on the two-character
directive opener tried before take_until1 on the newline; the captured
text is trimmed. -/
def parse_description (s : List Char) : PResult (List Char) :=
  pbind (popt (tagC [' ', '-']) s) fun s1 _ =>
  pbind (space1C s1) fun s2 _ =>
  pbind (palt (takeUntil1C [' ', '#']) (takeUntil1C ['\n']) s2) fun r d =>
  .parsed r (rustTrim d)

/-- parse_directive from src/src/parsing.rs: the directive opener, optional
spaces, a case-insensitive todo or skip keyword, a discarded run of
non-whitespace legacy noise, optional spaces, then the reason up to the
newline; an empty trimmed reason becomes none. The unreachable arm of the
source is a panic. -/
def parse_directive (s : List Char) : PResult TestDirective :=
  pbind (tagC [' ', '#'] s) fun r1 _ =>
  pbind (space0C r1) fun r2 _ =>
  pbind (palt (tagNoCaseC ['t', 'o', 'd', 'o']) (tagNoCaseC ['s', 'k', 'i', 'p']) r2) fun r3 d =>
  pbind (takeWhileC (fun c => !rustIsWhitespace c) r3) fun r4 _ =>
  pbind (pbind (space0C r4) fun r5 _ => takeUntilC ['\n'] r5) fun r6 reason =>
  let dl := d.map asciiLower
  let reasonT := rustTrim reason
  let reasonO := if reasonT.isEmpty then none else some reasonT
  if dl = ['t', 'o', 'd', 'o'] then .parsed r6 (.todo reasonO)
  else if dl = ['s', 'k', 'i', 'p'] then .parsed r6 (.skip reasonO)
  else .panik

/-- parse_status from src/src/parsing.rs: the literal ok or not ok. The
unreachable arm of the source is a panic. -/
def parse_status (s : List Char) : PResult Bool :=
  pbind (palt (tagC ['o', 'k']) (tagC ['n', 'o', 't', ' ', 'o', 'k']) s) fun r v =>
  if v = ['o', 'k'] then .parsed r true
  else if v = ['n', 'o', 't', ' ', 'o', 'k'] then .parsed r false
  else .panik

/-- parse_test_number from src/src/parsing.rs: one or more spaces or tabs
then a run of decimal digits, converted with a parse followed by expect,
which panics when the digits exceed the usize range. -/
def parse_test_number (s : List Char) : PResult Nat :=
  pbind (space1C s) fun r1 _ =>
  pbind (digit1C r1) fun r2 ds =>
  if digitsToNat ds < 2 ^ 64 then .parsed r2 (digitsToNat ds) else .panik

/-- parse_test_point from src/src/parsing.rs: the fixed tuple of status,
optional number, optional description, optional directive, newline and
optional yaml block. -/
def parse_test_point (s : List Char) : PResult TestPoint :=
  pbind (parse_status s) fun r1 status =>
  pbind (popt parse_test_number r1) fun r2 num =>
  pbind (popt parse_description r2) fun r3 desc =>
  pbind (popt parse_directive r3) fun r4 dir =>
  pbind (newlineC r4) fun r5 _ =>
  pbind (popt parse_yaml r5) fun r6 yaml =>
  .parsed r6 ⟨status, num, desc, dir, yaml⟩

/-- parse_test_points from src/src/parsing.rs: many1 over
parse_test_point. -/
def parse_test_points (s : List Char) : PResult (List TestPoint) :=
  pmany1 parse_test_point s

end Parsing

namespace Lib

/-- The version header literal matched by parse_version in src/src/lib.rs. -/
def versionTag : List Char :=
  ['T', 'A', 'P', ' ', 'V', 'e', 'r', 's', 'i', 'o', 'n', ' ', '1', '4', '\n']

/-- parse_version from src/src/lib.rs: a streaming tag on the version
header literal. -/
def parse_version (s : List Char) : PResult (List Char) :=
  tagS versionTag s

/-- parse_number from src/src/lib.rs: streaming digit1. -/
def parse_number (s : List Char) : PResult (List Char) :=
  digit1S s

/-- parse_test_point from src/src/lib.rs: after the status literal, one
space and the test number are parsed, the rest of the body is the todo
macro, which panics. -/
def parse_test_point (s : List Char) : PResult Unit :=
  pbind (palt (tagS ['o', 'k']) (tagS ['n', 'o', 't', ' ', 'o', 'k']) s) fun r1 _ =>
  pbind (tagS [' '] r1) fun r2 _ =>
  pbind (parse_number r2) fun _ _ =>
  .panik

/-- Outcome of the poll_for_read call inside poll_next in src/src/lib.rs:
the read future is still pending, it failed with an io error, it reported
end of input with zero bytes, or it appended a positive number of bytes. -/
inductive ReadOutcome where
  | pending
  | ioError
  | eof
  | got (n : Nat)
  deriving DecidableEq

/-- What one poll_next invocation of src/src/lib.rs does to its caller:
suspend, surface an error item, or hit a todo macro and panic. Note that
no constructor yields a record, because the source has no non-panicking
path that returns one. -/
inductive PollOutcome where
  | pending
  | errorItem
  | panicked
  deriving DecidableEq

/-- The control flow of ResultStream poll_next from src/src/lib.rs, as a
function of the read outcome and the buffer contents after the read: a
pending read suspends, a read error is surfaced, a zero-byte read hits a
todo macro, and otherwise the buffer is parsed with the parse_test_point
of src/src/lib.rs, whose parsed and error outcomes both reach todo macros
while incomplete suspends. -/
def pollNext (read : ReadOutcome) (buffer : List Char) : PollOutcome :=
  match read with
  | .pending => .pending
  | .ioError => .errorItem
  | .eof => .panicked
  | .got _ =>
    match parse_test_point buffer with
    | .parsed _ _ => .panicked
    | .incomplete => .pending
    | .error => .panicked
    | .panik => .panicked

/-- How Parser new from src/src/lib.rs can end once the first line has
been read: constructed parser, a panic from the unwrap on the version
parse, or an Err value of the declared io Result type, which the source
produces only for read failures and never for a header mismatch. -/
inductive SetupOutcome where
  | ready
  | panicked
  | errReturned
  deriving DecidableEq

/-- Parser new from src/src/lib.rs applied to the first line delivered by
read_line: the unwrap on parse_version either yields the parser or
panics. -/
def parserNew (line : List Char) : SetupOutcome :=
  match parse_version line with
  | .parsed _ _ => .ready
  | _ => .panicked

end Lib

/-- Whether a character list contains a newline only in final position,
the shape of any buffer produced by one read_line call. -/
def noInteriorNewline : List Char → Bool
  | [] => true
  | [_] => true
  | a :: b :: l => a != '\n' && noInteriorNewline (b :: l)

/-! Helper lemmas shared by the claim theorems. -/

theorem tagCore_self_append (t r : List Char) : tagCore t (t ++ r) = .hit r := by
  induction t with
  | nil => rfl
  | cons a ts ih => simp [tagCore, ih]

theorem tagCore_hit_eq : ∀ {t s r : List Char}, tagCore t s = .hit r → s = t ++ r := by
  intro t
  induction t with
  | nil =>
    intro s r h
    simp only [tagCore] at h
    cases h
    simp
  | cons a ts ih =>
    intro s r h
    cases s with
    | nil => simp [tagCore] at h
    | cons c cs =>
      simp only [tagCore] at h
      by_cases hca : c = a
      · rw [if_pos hca] at h
        subst hca
        simp [ih h]
      · rw [if_neg hca] at h
        cases h

theorem findSub_cons_none {pat : List Char} {a : Char} {t' : List Char}
    (h : findSub pat (a :: t') = none) :
    List.isPrefixOf pat (a :: t') = false ∧ findSub pat t' = none := by
  simp only [findSub] at h
  by_cases hp : List.isPrefixOf pat (a :: t') = true
  · rw [if_pos hp] at h
    cases h
  · refine ⟨by simp only [Bool.not_eq_true] at hp; exact hp, ?_⟩
    rw [if_neg hp] at h
    simpa using h

theorem hashPat_not_pref (a : Char) (t' u : List Char)
    (h1 : List.isPrefixOf [' ', '#'] (a :: t') = false) :
    List.isPrefixOf [' ', '#'] (a :: (t' ++ ' ' :: '#' :: u)) = false := by
  cases t' with
  | nil =>
    have hne : ('#' == ' ') = false := rfl
    simp [List.isPrefixOf, hne]
  | cons b t'' =>
    simp only [List.cons_append, List.isPrefixOf] at h1 ⊢
    simpa using h1

theorem findSub_hash_append : ∀ (t u : List Char), findSub [' ', '#'] t = none →
    findSub [' ', '#'] (t ++ ' ' :: '#' :: u) = some t.length := by
  intro t
  induction t with
  | nil => intro u _; simp [findSub, List.isPrefixOf]
  | cons a t' ih =>
    intro u h
    obtain ⟨h1, h2⟩ := findSub_cons_none h
    simp only [List.cons_append, findSub, List.append_eq]
    simp only [hashPat_not_pref a t' u h1]
    simp [ih u h2]

theorem version_append_has_interior_newline (c : Char) (r : List Char) :
    noInteriorNewline (Lib.versionTag ++ c :: r) = false := rfl

/-! Claim theorems. -/

/-- Claim C1, counterexample: on the description-rule input consisting of
a space, the text a newline b, and then the directive opener, the captured
description is a newline b, which contains a line terminator, although the
claim states the capture always stops at the first newline and never
contains one. -/
theorem description_claimed_newline_stop_false :
    Parsing.parse_description (" a\nb #c".toList) =
      PResult.parsed (" #c".toList) ("a\nb".toList) ∧
    '\n' ∈ "a\nb".toList := by
  exact ⟨by decide, by decide⟩

/-- Claim C1, amended: the description rule captures everything up to the
first occurrence of the directive opener whenever that opener occurs
anywhere in the text, even when a line terminator occurs earlier, so the
captured description can contain line terminators; only when no opener
occurs does the capture stop at the first newline. Formally: for any text
whose first character is not a dash, space or tab and which contains no
directive opener, followed by a directive opener, the rule captures the
whole text trimmed, with the opener as the remainder. -/
theorem description_hash_precedes_newline (a : Char) (t' u : List Char)
    (ha1 : a ≠ '-') (ha2 : isSpaceTab a = false)
    (hns : findSub [' ', '#'] (a :: t') = none) :
    Parsing.parse_description (' ' :: a :: (t' ++ ' ' :: '#' :: u)) =
      PResult.parsed (' ' :: '#' :: u) (rustTrim (a :: t')) := by
  have htag : tagCore [' ', '-'] (' ' :: a :: (t' ++ ' ' :: '#' :: u)) = .miss := by
    simp [tagCore, ha1]
  have hfind : findSub [' ', '#'] (a :: (t' ++ ' ' :: '#' :: u)) = some (t'.length + 1) := by
    have h := findSub_hash_append (a :: t') u hns
    simpa using h
  have htake : takeUntil1C [' ', '#'] (a :: (t' ++ ' ' :: '#' :: u)) =
      PResult.parsed (' ' :: '#' :: u) (a :: t') := by
    simp [takeUntil1C, hfind, List.take_left, List.drop_left]
  have hsp : isSpaceTab ' ' = true := rfl
  simp [Parsing.parse_description, pbind, popt, tagC, htag, space1C,
    List.takeWhile_cons, List.dropWhile_cons, hsp, ha2, palt, htake]

/-- Claim C1, witness: the amended theorem applied to the concrete text a
newline b followed by the directive opener and c. -/
theorem description_hash_precedes_newline_witness :
    ('a' ≠ '-' ∧ isSpaceTab 'a' = false ∧ findSub [' ', '#'] ('a' :: "\nb".toList) = none) ∧
    Parsing.parse_description (' ' :: 'a' :: ("\nb".toList ++ ' ' :: '#' :: ['c'])) =
      PResult.parsed (' ' :: '#' :: ['c']) (rustTrim ('a' :: "\nb".toList)) :=
  ⟨⟨by decide, by decide, by decide⟩,
    description_hash_precedes_newline 'a' ("\nb".toList) ['c']
      (by decide) (by decide) (by decide)⟩

/-- Claim C2, counterexample: the description-rule input of the claim,
which lacks its trailing newline, is not reported Incomplete, and neither
is the unterminated test-point buffer of the claim. -/
theorem unterminated_inputs_not_incomplete :
    Parsing.parse_description (" - this is a description #".toList) ≠ PResult.incomplete ∧
    Parsing.parse_test_point ("ok 3 - desc".toList) ≠ PResult.incomplete := by
  exact ⟨by decide, by decide⟩

/-- Claim C2, amended: the grammar of src/src/parsing.rs is built from
complete combinators, so otherwise-valid content whose terminating newline
has not arrived is not Incomplete: the description-rule input parses
successfully to a short description with the directive opener left over,
exactly as the repository test asserts, and the unterminated test-point
buffer is a definite grammar error. -/
theorem unterminated_inputs_parse_or_error :
    Parsing.parse_description (" - this is a description #".toList) =
      PResult.parsed (" #".toList) ("this is a description".toList) ∧
    Parsing.parse_test_point ("ok 3 - desc".toList) = PResult.error := by
  exact ⟨by decide, by decide⟩

/-- Claim C3: arrival-chunking invariance cannot hold of the stream
adapter in src/src/lib.rs, because its parse_test_point body is a todo
macro that panics as soon as a status, a space and a test number have been
recognized, and the poll_next success and error branches are todo macros
as well: polling with any buffer that holds a complete test-point line
panics instead of yielding a record, so no sequence of records is produced
for either the whole stream or its split halves. -/
theorem poll_next_panics_on_test_point :
    Lib.parse_test_point ("ok 1\n".toList) = PResult.panik ∧
    Lib.pollNext (Lib.ReadOutcome.got 5) ("ok 1\n".toList) = Lib.PollOutcome.panicked := by
  exact ⟨by decide, by decide⟩

/-- Claim C4: the YAML rule of src/src/parsing.rs never succeeds on the
delimited block the claim describes, for any interior text: the rest
combinator consumes the close marker as well, after which the closing tag
is matched against exhausted input and fails, so the rule is a grammar
error rather than a successful capture of the interior. -/
theorem yaml_block_never_parses (t : List Char) :
    Parsing.parse_yaml ([' ', ' ', '-', '-', '-', '\n'] ++ (t ++ [' ', ' ', '.', '.', '.', '\n'])) =
      PResult.error := by
  simp [Parsing.parse_yaml, pbind, tagC, restC, tagCore_self_append, tagCore]

/-- Claim C5: parse_plan consumes only the 1..N prefix and returns the
count; the optional reason and the terminating newline remain in the
remainder, because the inner helpers that would consume them are never
applied in the source. -/
theorem plan_leaves_line_unconsumed :
    Parsing.parse_plan ("1..5\n".toList) = PResult.parsed ("\n".toList) 5 ∧
    Parsing.parse_plan ("1..5 # why\n".toList) = PResult.parsed (" # why\n".toList) 5 := by
  exact ⟨by decide, by decide⟩

/-- Claim C6: parsing a test number or a plan count panics on overflow
instead of falling through to a grammar-level non-match: a digit run whose
value reaches two to the sixty-fourth makes parse_test_number and hence
parse_test_point panic through the expect call, and a plan count of two to
the thirty-second makes parse_plan panic likewise. -/
theorem number_overflow_panics :
    Parsing.parse_test_number (" 18446744073709551616".toList) = PResult.panik ∧
    Parsing.parse_test_point ("ok 18446744073709551616\n".toList) = PResult.panik ∧
    Parsing.parse_plan ("1..4294967296\n".toList) = PResult.panik := by
  exact ⟨by decide, by decide, by decide⟩

/-- Claim C7: the Empty rule of src/src/parsing.rs never succeeds on any
input at all, in particular not on a bare newline: the leading multispace
consumer already swallows every newline, so the newline tag that follows
always faces a character that cannot be a newline, or exhausted input. -/
theorem empty_rule_never_matches : ∀ s : List Char, Parsing.parse_empty s = PResult.error := by
  intro s
  induction s with
  | nil => rfl
  | cons c s' ih =>
    by_cases hc : isMultiChar c = true
    · have hstep : Parsing.parse_empty (c :: s') = Parsing.parse_empty s' := by
        simp [Parsing.parse_empty, pbind, multispace0C, List.dropWhile_cons, hc]
      rw [hstep]
      exact ih
    · have hcf : isMultiChar c = false := by simpa using hc
      have hc' : c ≠ '\n' := by
        intro h
        subst h
        simp [isMultiChar] at hcf
      simp [Parsing.parse_empty, pbind, multispace0C, List.dropWhile_cons, hcf, tagC, tagCore, hc']

/-- Claim C8, counterexample: on a status line with two spaces before the
digits the test point still carries the test number, although the claim
states the number rule requires exactly one space and would not match. -/
theorem double_space_number_still_matches :
    Parsing.parse_test_point ("ok  3\n".toList) =
      PResult.parsed [] ⟨true, some 3, none, none, none⟩ := by
  decide

/-- Claim C8, amended: the test-number rule matches a run of decimal
digits preceded by one or more spaces or tabs, so an extra leading space
never changes its result, and with two spaces before the digits the
number still parses. -/
theorem test_number_accepts_space_runs :
    (∀ s : List Char,
      Parsing.parse_test_number (' ' :: ' ' :: s) = Parsing.parse_test_number (' ' :: s)) ∧
    Parsing.parse_test_number ("  3\n".toList) = PResult.parsed ("\n".toList) 3 :=
  ⟨fun _ => rfl, by decide⟩

/-- Claim C9: parsing the boundary line with mixed-case legacy skip
directive yields exactly one test point with status true, test number
three, the stated description, a skip directive whose legacy noise is
discarded and whose reason is trimmed, and no yaml block. -/
theorem boundary_legacy_skip_line :
    Parsing.parse_test_points
        ("ok 3 - this is a stupid description # SkiPped: stupid Legacy skip \n".toList) =
      PResult.parsed []
        [⟨true, some 3, some ("this is a stupid description".toList),
          some (TestDirective.skip (some ("stupid Legacy skip".toList))), none⟩] := by
  decide

/-- Claim C10: for every single line, as delivered by read_line, that
differs from the exact version header literal, Parser new panics on the
unwrap of the version parse rather than returning an Err value of its
declared io Result type. -/
theorem malformed_header_panics (line : List Char)
    (h1 : noInteriorNewline line = true) (h2 : line ≠ Lib.versionTag) :
    Lib.parserNew line = Lib.SetupOutcome.panicked := by
  cases htc : tagCore Lib.versionTag line with
  | hit r =>
    exfalso
    have hline : line = Lib.versionTag ++ r := tagCore_hit_eq htc
    cases r with
    | nil =>
      apply h2
      simpa using hline
    | cons c r' =>
      rw [hline, version_append_has_interior_newline] at h1
      exact Bool.false_ne_true h1
  | short => simp [Lib.parserNew, Lib.parse_version, tagS, htc]
  | miss => simp [Lib.parserNew, Lib.parse_version, tagS, htc]

/-- Claim C10, witness: a header line carrying version thirteen is a
single line, differs from the literal, and makes Parser new panic. -/
theorem malformed_header_panics_witness :
    (noInteriorNewline ("TAP Version 13\n".toList) = true ∧
      "TAP Version 13\n".toList ≠ Lib.versionTag) ∧
    Lib.parserNew ("TAP Version 13\n".toList) = Lib.SetupOutcome.panicked :=
  ⟨⟨by decide, by decide⟩,
    malformed_header_panics ("TAP Version 13\n".toList) (by decide) (by decide)⟩

end Arnulf
